import Mathlib

/-!
# Verification of the PII Detection & Anonymization Engine (sanitize-svc)

Shallow embedding of `src/services/sanitize-svc/app/main_simple.py`:
the regex-based entity detector (`find_entities` over the `PATTERNS` table),
the span rewriter (`apply_sanitization`) and the two endpoint bodies
(`sanitize_preview`, `sanitize_apply`).

Texts are modelled as `List Char` (Python `str` is a sequence of code
points, sliced by `text[:start]` / `text[end:]`).  The Python `re` module
is embedded as a small backtracking engine (`RE`, `RE.run`) whose
alternative order reproduces Python's leftmost, greedy, backtracking match
priority; `findIter` reproduces `re.finditer` (leftmost non-overlapping
matches, each continuing at the previous match's end).  Character classes
are the ASCII readings of the source patterns (all concrete inputs in this
development are ASCII), with `re.IGNORECASE` applied as in the source.

The `diff` field of the preview response (`difflib.ndiff`, a third-party
library computation) is not modelled; no claim refers to it.  The
JWT/role-check wrappers are external collaborators per the spec's §6 and
are likewise outside the engine model.
-/

namespace Sanitize

/-! ## Character classes (ASCII readings, with IGNORECASE applied) -/

/-- `\d` -/
def isDigitC (c : Char) : Bool := c.isDigit

/-- `\w` (word character, for `\b` boundaries): `[A-Za-z0-9_]`. -/
def isWordC (c : Char) : Bool := c.isAlphanum || c = '_'

/-- `\s`: ASCII whitespace as matched by Python `\s`. -/
def isSpaceC (c : Char) : Bool :=
  c = ' ' || c = '\t' || c = '\n' || c = '\r' || c = '\x0b' || c = '\x0c'

/-- `[A-Za-z0-9._%+-]` — local part of the EMAIL pattern. -/
def emailLocalC (c : Char) : Bool :=
  c.isAlpha || c.isDigit || c = '.' || c = '_' || c = '%' || c = '+' || c = '-'

/-- `[A-Za-z0-9.-]` — domain part of the EMAIL pattern. -/
def emailDomainC (c : Char) : Bool :=
  c.isAlpha || c.isDigit || c = '.' || c = '-'

/-- `[A-Z|a-z]` — TLD class of the EMAIL pattern (the `|` is a literal
class member in the source regex). -/
def emailTldC (c : Char) : Bool := c.isAlpha || c = '|'

/-- `[-.]` — separator class of the PHONE pattern. -/
def phoneSepC (c : Char) : Bool := c = '-' || c = '.'

/-- `[-\s]` — separator class of the CREDIT_CARD pattern. -/
def cardSepC (c : Char) : Bool := c = '-' || isSpaceC c

/-- `[A-HJ-NP-TV-Z]` under IGNORECASE — DNI check letter (A–Z minus I, O, U,
either case). -/
def dniLetterC (c : Char) : Bool :=
  let u := c.toUpper
  ('A' ≤ u && u ≤ 'Z') && !(u = 'I' || u = 'O' || u = 'U')

/-- `[0-9A-Z]` under IGNORECASE — IBAN body character. -/
def ibanBodyC (c : Char) : Bool :=
  c.isDigit || ('A' ≤ c && c ≤ 'Z') || ('a' ≤ c && c ≤ 'z')

/-- `[A-Za-z0-9]` — OPENAI_KEY body character. -/
def keyBodyC (c : Char) : Bool := c.isAlpha || c.isDigit

/-! ## A small backtracking regex engine -/

/-- Regex AST covering the constructs used by the source patterns:
single-character classes, concatenation, prioritized alternation,
greedy Kleene star and the zero-width word-boundary assertion `\b`. -/
inductive RE where
  | eps  : RE
  | cls  : (Char → Bool) → RE
  | seq  : RE → RE → RE
  | alt  : RE → RE → RE
  | star : RE → RE
  | wb   : RE

/-- Greedy `?`: prefer matching over skipping. -/
def RE.opt (a : RE) : RE := RE.alt a RE.eps

/-- `{n}`: exactly `n` copies. -/
def RE.rep : Nat → RE → RE
  | 0, _ => RE.eps
  | n + 1, a => RE.seq a (RE.rep n a)

/-- `{n,}` (greedy): `n` copies followed by a greedy star. -/
def RE.atLeast (n : Nat) (a : RE) : RE := RE.seq (RE.rep n a) (RE.star a)

/-- Literal character under IGNORECASE. -/
def RE.lit (c : Char) : RE := RE.cls (fun x => x.toLower = c.toLower)

/-- Is there a word boundary between an optional previous character and an
optional next character?  (`none` = edge of the text, a non-word side.) -/
def boundaryAt (prev next : Option Char) : Bool :=
  (match prev with | none => false | some c => isWordC c)
    ≠ (match next with | none => false | some c => isWordC c)

/-- Backtracking matcher.  A state is `(lctx, rest)` where `lctx` is the
reversed already-consumed prefix (kept for `\b`) and `rest` the remaining
input.  Returns the reachable states in Python's backtracking priority
order (leftmost alternative / greedy-longest first), so the head of the
list is the match Python's engine commits to.  `fuel` bounds the recursion
depth (AST depth plus star iterations); callers pass `rest.length + 64`,
ample for every source pattern. -/
def RE.run : Nat → RE → List Char → List Char → List (List Char × List Char)
  | 0, _, _, _ => []
  | _ + 1, RE.eps, l, r => [(l, r)]
  | _ + 1, RE.cls p, l, r =>
    match r with
    | [] => []
    | c :: r' => if p c then [(c :: l, r')] else []
  | f + 1, RE.seq a b, l, r =>
    (RE.run f a l r).flatMap fun x => RE.run f b x.1 x.2
  | f + 1, RE.alt a b, l, r => RE.run f a l r ++ RE.run f b l r
  | f + 1, RE.star a, l, r =>
    ((RE.run f a l r).filter (fun x => x.2.length < r.length)).flatMap
      (fun x => RE.run f (RE.star a) x.1 x.2) ++ [(l, r)]
  | _ + 1, RE.wb, l, r =>
    if boundaryAt l.head? r.head? then [(l, r)] else []

/-- One step of `re.finditer`-style scanning: at each position try the
pattern; on a match, emit `(start, end)` and continue at the match end
(one position further for a zero-width match, as Python does); otherwise
advance one character. -/
def findIterGo (re : RE) : Nat → List Char → List Char → Nat → List (Nat × Nat)
  | 0, _, _, _ => []
  | fuel + 1, lctx, rest, pos =>
    match RE.run (rest.length + 64) re lctx rest with
    | (l', r') :: _ =>
      let len := rest.length - r'.length
      if len = 0 then
        match rest with
        | [] => [(pos, pos)]
        | c :: rest' => (pos, pos) :: findIterGo re fuel (c :: lctx) rest' (pos + 1)
      else (pos, pos + len) :: findIterGo re fuel l' r' (pos + len)
    | [] =>
      match rest with
      | [] => []
      | c :: rest' => findIterGo re fuel (c :: lctx) rest' (pos + 1)

/-- `re.finditer pattern text`: the list of `(start, end)` offsets of the
non-overlapping leftmost matches, left to right. -/
def findIter (re : RE) (text : List Char) : List (Nat × Nat) :=
  findIterGo re (text.length + 1) [] text 0

/-! ## The PATTERNS table

Each entry embeds the source regex (matched with `re.IGNORECASE`):

* `EMAIL`: `\b[A-Za-z0-9._%+-]+@[A-Za-z0-9.-]+\.[A-Z|a-z]{2,}\b`
* `PHONE`: `\b\d{3}[-.]?\d{3}[-.]?\d{4}\b`
* `SSN`: `\b\d{3}-\d{2}-\d{4}\b`
* `CREDIT_CARD`: `\b\d{4}[-\s]?\d{4}[-\s]?\d{4}[-\s]?\d{4}\b`
* `DNI_ES`: `\b\d{8}[A-HJ-NP-TV-Z]\b`
* `IBAN_ES`: `\bES\d{2}[0-9A-Z]{20}\b`
* `OPENAI_KEY`: `\bsk-[A-Za-z0-9]{10,}\b`
-/

def seqs : List RE → RE
  | [] => RE.eps
  | [a] => a
  | a :: rest => RE.seq a (seqs rest)

def emailRE : RE :=
  seqs [RE.wb, RE.atLeast 1 (RE.cls emailLocalC), RE.lit '@',
        RE.atLeast 1 (RE.cls emailDomainC), RE.lit '.',
        RE.atLeast 2 (RE.cls emailTldC), RE.wb]

def phoneRE : RE :=
  seqs [RE.wb, RE.rep 3 (RE.cls isDigitC), RE.opt (RE.cls phoneSepC),
        RE.rep 3 (RE.cls isDigitC), RE.opt (RE.cls phoneSepC),
        RE.rep 4 (RE.cls isDigitC), RE.wb]

def ssnRE : RE :=
  seqs [RE.wb, RE.rep 3 (RE.cls isDigitC), RE.lit '-',
        RE.rep 2 (RE.cls isDigitC), RE.lit '-',
        RE.rep 4 (RE.cls isDigitC), RE.wb]

def creditCardRE : RE :=
  seqs [RE.wb, RE.rep 4 (RE.cls isDigitC), RE.opt (RE.cls cardSepC),
        RE.rep 4 (RE.cls isDigitC), RE.opt (RE.cls cardSepC),
        RE.rep 4 (RE.cls isDigitC), RE.opt (RE.cls cardSepC),
        RE.rep 4 (RE.cls isDigitC), RE.wb]

def dniRE : RE :=
  seqs [RE.wb, RE.rep 8 (RE.cls isDigitC), RE.cls dniLetterC, RE.wb]

def ibanRE : RE :=
  seqs [RE.wb, RE.lit 'E', RE.lit 'S', RE.rep 2 (RE.cls isDigitC),
        RE.rep 20 (RE.cls ibanBodyC), RE.wb]

def openaiKeyRE : RE :=
  seqs [RE.wb, RE.lit 's', RE.lit 'k', RE.lit '-',
        RE.atLeast 10 (RE.cls keyBodyC), RE.wb]

/-- The `PATTERNS` dict, in insertion (= iteration) order. -/
def PATTERNS : List (String × RE) :=
  [("EMAIL", emailRE), ("PHONE", phoneRE), ("SSN", ssnRE),
   ("CREDIT_CARD", creditCardRE), ("DNI_ES", dniRE),
   ("IBAN_ES", ibanRE), ("OPENAI_KEY", openaiKeyRE)]

/-! ## Data model and engine operations -/

/-- `EntityHit` (pydantic model): one detected span. -/
structure EntityHit where
  entity_type : String
  start : Nat
  «end» : Nat
  score : ℚ
  text : List Char
  deriving DecidableEq, Repr

/-- The raw candidate list of `find_entities` before the final sort:
for each active pattern, in `PATTERNS` order, all `re.finditer` matches. -/
def rawCandidates (text : List Char) (patterns : List (String × RE)) :
    List EntityHit :=
  patterns.flatMap fun kv =>
    (findIter kv.2 text).map fun se =>
      { entity_type := kv.1, start := se.1, «end» := se.2, score := 0.95,
        text := (text.drop se.1).take (se.2 - se.1) }

/-- The pattern dict used by `find_entities`:
`PATTERNS if not allowed_entities else {k: v for k, v in PATTERNS.items() if k in allowed_entities}`
(`None` and the empty list are both falsy in Python). -/
def activePatterns (allowed_entities : Option (List String)) :
    List (String × RE) :=
  match allowed_entities with
  | none => PATTERNS
  | some l => if l.isEmpty then PATTERNS
              else PATTERNS.filter fun kv => l.contains kv.1

/-- Sort key of `entities.sort(key=lambda x: x.start)`. -/
def startLE (a b : EntityHit) : Prop := a.start ≤ b.start

/-- Sort key of `sorted(entities, key=lambda x: x.start, reverse=True)`. -/
def startGE (a b : EntityHit) : Prop := b.start ≤ a.start

instance : DecidableRel startLE := fun a b => Nat.decLe a.start b.start

instance : DecidableRel startGE := fun a b => Nat.decLe b.start a.start

instance : IsTotal EntityHit startLE := ⟨fun a b => Nat.le_total a.start b.start⟩

instance : IsTrans EntityHit startLE := ⟨fun _ _ _ => Nat.le_trans⟩

instance : IsTotal EntityHit startGE := ⟨fun a b => Nat.le_total b.start a.start⟩

instance : IsTrans EntityHit startGE := ⟨fun _ _ _ h h' => Nat.le_trans h' h⟩

/-- `find_entities(text, allowed_entities)`: collect every match of every
active pattern, then stably sort by start position
(`entities.sort(key=lambda x: x.start)`; Python's sort is stable, embedded
as Mathlib's stable `insertionSort`). -/
def find_entities (text : List Char)
    (allowed_entities : Option (List String) := none) : List EntityHit :=
  (rawCandidates text (activePatterns allowed_entities)).insertionSort startLE

/-- The replacement string computed in `apply_sanitization`'s loop body:
`mask_char * mask_len` for the mask operator (Python string repetition,
empty when `mask_len <= 0`), otherwise `f"<{entity.entity_type}>"`. -/
def replacement_of (operator : String) (mask_char : List Char)
    (mask_len : Int) (entity : EntityHit) : List Char :=
  if operator = "mask" then (List.replicate mask_len.toNat mask_char).flatten
  else '<' :: (entity.entity_type.toList ++ ['>'])

/-- `apply_sanitization(text, entities, operator, mask_char, mask_len)`:
sort the spans by start descending (`sorted(..., reverse=True)`, a stable
sort, embedded as the stable `insertionSort` under the flipped key) and
rewrite each in turn via
`result = result[:start] + replacement + result[end:]`. -/
def apply_sanitization (text : List Char) (entities : List EntityHit)
    (operator : String) (mask_char : List Char) (mask_len : Int) :
    List Char :=
  let entities_reversed := entities.insertionSort startGE
  entities_reversed.foldl
    (fun result entity =>
      result.take entity.start
        ++ replacement_of operator mask_char mask_len entity
        ++ result.drop entity.«end»)
    text

/-- `PreviewRequest` (also the request model of `/sanitize/apply`),
with the source's pydantic defaults. -/
structure PreviewRequest where
  text : List Char
  language : String := "en"
  entities : Option (List String) := none
  operator : String := "replace"
  mask_char : List Char := ['*']
  mask_len : Int := 6

/-- `PreviewResponse` (without the unmodelled `diff` field). -/
structure PreviewResponse where
  redacted_text : List Char
  entities : List EntityHit

/-- `ApplyResponse`. -/
structure ApplyResponse where
  sanitized_text : List Char
  entities_applied : List EntityHit

/-- Body of the `/sanitize/preview` endpoint. -/
def sanitize_preview (req : PreviewRequest) : PreviewResponse :=
  let entities := find_entities req.text req.entities
  let redacted_text :=
    apply_sanitization req.text entities req.operator req.mask_char req.mask_len
  { redacted_text := redacted_text, entities := entities }

/-- Body of the `/sanitize/apply` endpoint. -/
def sanitize_apply (req : PreviewRequest) : ApplyResponse :=
  let entities := find_entities req.text req.entities
  let sanitized_text :=
    apply_sanitization req.text entities req.operator req.mask_char req.mask_len
  { sanitized_text := sanitized_text, entities_applied := entities }

/-! ## Validation predicates and the reference reconstruction -/

/-- Decidable check that no two spans of a list intersect
(for spans `[start, end)`, `a` and `b` are disjoint iff
`a.end ≤ b.start ∨ b.end ≤ a.start`). -/
def spansOk : List EntityHit → Bool
  | [] => true
  | a :: t =>
    (t.all fun b => a.«end» ≤ b.start || b.«end» ≤ a.start) && spansOk t

/-- Decidable well-formedness of a resolved span set against a text of
length `n`, scanning from cursor `pos`: spans are ascending, pairwise
non-overlapping (the next start is at or past the previous end, so
abutting spans are allowed), each with `start < end ≤ n` per the
`EntityMatch` invariant. -/
def wfSpans (n : Nat) : Nat → List EntityHit → Bool
  | _, [] => true
  | pos, e :: t =>
    (pos ≤ e.start && e.start < e.«end» && e.«end» ≤ n) && wfSpans n e.«end» t

/-- Modelled from the spec: the "reference whole-string reconstruction
that substitutes all accepted spans simultaneously against the *original*
coordinates" (§8 Offset safety).  Walks the ascending span set once,
copying the untouched text between `pos` and the next span's start and
emitting each span's replacement in place. -/
def reconstructFrom (text : List Char) (repl : EntityHit → List Char) :
    Nat → List EntityHit → List Char
  | pos, [] => text.drop pos
  | pos, e :: rest =>
    (text.drop pos).take (e.start - pos) ++ repl e
      ++ reconstructFrom text repl e.«end» rest

/-- Strict descending order on start offsets (used to identify the
descending sort of `apply_sanitization` with list reversal). -/
def startGT (a b : EntityHit) : Prop := b.start < a.start

instance : IsAntisymm EntityHit startGT :=
  ⟨fun _ _ h h' => absurd (Nat.lt_trans h h') (Nat.lt_irrefl _)⟩

end Sanitize

namespace Sanitize

/-! ## Helper lemmas -/

lemma length_flatten_replicate (n : Nat) (l : List Char) :
    ((List.replicate n l).flatten).length = n * l.length := by
  induction n with
  | zero => simp
  | succ n ih => simp [List.replicate_succ, ih, Nat.succ_mul, Nat.add_comm]

lemma wfSpans_bounds (n : Nat) : ∀ (pos : Nat) (l : List EntityHit),
    wfSpans n pos l = true →
    ∀ e ∈ l, pos ≤ e.start ∧ e.start < e.«end» ∧ e.«end» ≤ n := by
  intro pos l
  induction l generalizing pos with
  | nil => intro _ e he; cases he
  | cons a t ih =>
    intro h e he
    simp only [wfSpans, Bool.and_eq_true, decide_eq_true_eq] at h
    obtain ⟨⟨⟨h1, h2⟩, h3⟩, h4⟩ := h
    rcases List.mem_cons.mp he with rfl | he'
    · exact ⟨h1, h2, h3⟩
    · have := ih a.«end» h4 e he'
      exact ⟨by omega, this.2.1, this.2.2⟩

lemma wfSpans_chain (n : Nat) : ∀ (pos : Nat) (l : List EntityHit),
    wfSpans n pos l = true →
    l.Pairwise fun a b => a.«end» ≤ b.start := by
  intro pos l
  induction l generalizing pos with
  | nil => intro _; exact List.Pairwise.nil
  | cons a t ih =>
    intro h
    simp only [wfSpans, Bool.and_eq_true, decide_eq_true_eq] at h
    obtain ⟨_, h4⟩ := h
    refine List.Pairwise.cons ?_ (ih a.«end» h4)
    intro b hb
    exact (wfSpans_bounds n a.«end» t h4 b hb).1

lemma wfSpans_strict {n pos : Nat} {l : List EntityHit}
    (h : wfSpans n pos l = true) :
    l.Pairwise fun a b => a.start < b.start := by
  refine (wfSpans_chain n pos l h).imp_of_mem ?_
  intro a b ha _ hab
  have := (wfSpans_bounds n pos l h a ha).2.1
  omega

lemma insertionSort_ge_eq_reverse (l : List EntityHit)
    (h : l.Pairwise fun a b => a.start < b.start) :
    l.insertionSort startGE = l.reverse := by
  have hperm : List.Perm (l.insertionSort startGE) l :=
    List.perm_insertionSort startGE l
  have hsorted : (l.insertionSort startGE).Pairwise startGE :=
    List.sorted_insertionSort startGE l
  have hnodup : (l.map EntityHit.start).Pairwise (· ≠ ·) := by
    rw [List.pairwise_map]
    exact h.imp Nat.ne_of_lt
  have hnodup_out :
      ((l.insertionSort startGE).map EntityHit.start).Pairwise (· ≠ ·) :=
    ((hperm.map EntityHit.start).nodup_iff).mpr hnodup
  have hne_out :
      (l.insertionSort startGE).Pairwise fun a b => a.start ≠ b.start :=
    List.pairwise_map.mp hnodup_out
  have hstrict_out : (l.insertionSort startGE).Pairwise startGT :=
    (hsorted.and hne_out).imp fun hab =>
      Nat.lt_of_le_of_ne hab.1 hab.2.symm
  have hrev : (l.reverse).Pairwise startGT := by
    rw [List.pairwise_reverse]
    exact h.imp fun hab => hab
  exact List.eq_of_perm_of_sorted (hperm.trans l.reverse_perm.symm)
    hstrict_out hrev

lemma reconstructFrom_split (text : List Char) (repl : EntityHit → List Char)
    {pos m : Nat} (hpm : pos ≤ m) :
    ∀ l : List EntityHit, (∀ e ∈ l, m ≤ e.start) →
      reconstructFrom text repl pos l
        = (text.drop pos).take (m - pos) ++ reconstructFrom text repl m l
  | [], _ => by
    simp only [reconstructFrom]
    conv_lhs => rw [← List.take_append_drop (m - pos) (text.drop pos)]
    rw [List.drop_drop]
    congr 2
    omega
  | e :: rest, h => by
    have hm : m ≤ e.start := h e (List.mem_cons_self e rest)
    simp only [reconstructFrom]
    have h1 : e.start - pos = (m - pos) + (e.start - m) := by omega
    rw [h1, List.take_add, List.drop_drop]
    have h2 : pos + (m - pos) = m := by omega
    rw [h2]
    simp [List.append_assoc]

lemma foldr_rewrite_eq_reconstruct (text : List Char)
    (repl : EntityHit → List Char) :
    ∀ l : List EntityHit,
      (∀ e ∈ l, e.start < e.«end» ∧ e.«end» ≤ text.length) →
      l.Pairwise (fun a b => a.«end» ≤ b.start) →
      l.foldr (fun e res => res.take e.start ++ repl e ++ res.drop e.«end») text
        = reconstructFrom text repl 0 l
  | [], _, _ => by simp [reconstructFrom]
  | e :: rest, hb, hp => by
    have hbe := hb e (List.mem_cons_self e rest)
    have hbrest : ∀ x ∈ rest, x.start < x.«end» ∧ x.«end» ≤ text.length :=
      fun x hx => hb x (List.mem_cons_of_mem _ hx)
    have hphead : ∀ x ∈ rest, e.«end» ≤ x.start := (List.pairwise_cons.mp hp).1
    have hptail := (List.pairwise_cons.mp hp).2
    have IH := foldr_rewrite_eq_reconstruct text repl rest hbrest hptail
    have hsplit :=
      reconstructFrom_split text repl (Nat.zero_le e.«end») rest hphead
    have hlen : (text.take e.«end»).length = e.«end» := by
      rw [List.length_take]; omega
    simp only [List.foldr_cons, IH, hsplit, List.drop_zero, Nat.sub_zero]
    rw [List.take_append_of_le_length (by omega), List.take_take,
      Nat.min_eq_left (Nat.le_of_lt hbe.1), List.drop_left' hlen]
    simp only [reconstructFrom, List.drop_zero, Nat.sub_zero]

lemma find_entities_sorted_aux (text : List Char)
    (allowed : Option (List String)) :
    (find_entities text allowed).Pairwise fun a b => a.start ≤ b.start :=
  (List.sorted_insertionSort startLE
    (rawCandidates text (activePatterns allowed))).imp fun h => h

/-! ## Claims -/

/-- C1: For every text and every configuration (language, entities
allow-list, operator, mask_char, mask_len), the `redacted_text` returned
by the preview operation equals the `sanitized_text` returned by the
apply operation, and preview's `entities` list equals apply's
`entities_applied` list.  Both endpoint bodies run the same
`find_entities` and `apply_sanitization` on the same request. -/
theorem preview_apply_parity (req : PreviewRequest) :
    (sanitize_preview req).redacted_text = (sanitize_apply req).sanitized_text
      ∧ (sanitize_preview req).entities = (sanitize_apply req).entities_applied :=
  ⟨rfl, rfl⟩

/-- C2 (counterexample): the span set returned by `find_entities` can
contain two intersecting spans.  On `"12345678Z@x.com"` the EMAIL pattern
matches `[0, 15)` and the DNI_ES pattern matches `[0, 9)`, and both are
returned. -/
theorem detection_nonoverlap_counterexample :
    (find_entities "12345678Z@x.com".toList none).map
        (fun e => (e.entity_type, e.start, e.«end», e.text))
      = [("EMAIL", 0, 15, "12345678Z@x.com".toList),
         ("DNI_ES", 0, 9, "12345678Z".toList)] ∧
    spansOk (find_entities "12345678Z@x.com".toList none) = false := by
  constructor
  · decide
  · decide

/-- C2 (amended): for every input text and every allow-list, the span set
returned by `find_entities` is sorted ascending by `start`; the spans need
not be pairwise non-intersecting (no overlap resolution is performed). -/
theorem detection_sorted_by_start (text : List Char)
    (allowed : Option (List String)) :
    (find_entities text allowed).Pairwise fun a b => a.start ≤ b.start :=
  find_entities_sorted_aux text allowed

/-- C3 (counterexample): the detector does not discard intersecting
candidates.  On `"98765432X@y.org"` the EMAIL candidate `[0, 15)` and the
DNI_ES candidate `[0, 9)` intersect, yet both are kept in the result, so
the claimed greedy interval-scheduling resolution (which would keep only
the first) is not what `find_entities` computes. -/
theorem overlap_resolution_counterexample :
    (find_entities "98765432X@y.org".toList none).map
        (fun e => (e.entity_type, e.start, e.«end», e.text))
      = [("EMAIL", 0, 15, "98765432X@y.org".toList),
         ("DNI_ES", 0, 9, "98765432X".toList)] ∧
    spansOk (find_entities "98765432X@y.org".toList none) = false := by
  constructor
  · decide
  · decide

/-- C3 (amended): the detector performs no overlap resolution: its result
is exactly the raw candidate list (every `re.finditer` match of every
active pattern, in pattern order) stably sorted ascending by `start`; in
particular it is a permutation of the candidates — no candidate is
discarded or merged, and score and span length play no role. -/
theorem detection_keeps_all_candidates (text : List Char)
    (allowed : Option (List String)) :
    List.Perm (find_entities text allowed)
        (rawCandidates text (activePatterns allowed)) ∧
    (find_entities text allowed).Pairwise fun a b => a.start ≤ b.start :=
  ⟨List.perm_insertionSort startLE _, find_entities_sorted_aux text allowed⟩

/-- C4: for every text and every non-overlapping, ascending-sorted span
set (with `start < end ≤ length`, abutting spans allowed), rewriting the
spans one at a time in descending start order
(`result = result[:start] + replacement + result[end:]`) yields exactly
the same output as the reference reconstruction that substitutes all
spans simultaneously against the original coordinates. -/
theorem high_to_low_rewrite_matches_reference (text : List Char)
    (spans : List EntityHit) (op : String) (mc : List Char) (ml : Int)
    (h : wfSpans text.length 0 spans = true) :
    apply_sanitization text spans op mc ml
      = reconstructFrom text (replacement_of op mc ml) 0 spans := by
  have hb : ∀ e ∈ spans, e.start < e.«end» ∧ e.«end» ≤ text.length :=
    fun e he => ⟨(wfSpans_bounds _ _ _ h e he).2.1,
                 (wfSpans_bounds _ _ _ h e he).2.2⟩
  have hp := wfSpans_chain text.length 0 spans h
  have hstrict := wfSpans_strict h
  show (spans.insertionSort startGE).foldl _ text = _
  rw [insertionSort_ge_eq_reverse spans hstrict, List.foldl_reverse]
  exact foldr_rewrite_eq_reconstruct text (replacement_of op mc ml) spans hb hp

/-- Witness for C4, with abutting spans (`end₁ = start₂ = 3`). -/
theorem high_to_low_rewrite_matches_reference_witness :
    wfSpans "abcdef".toList.length 0
        [⟨"A", 1, 3, 0.95, "bc".toList⟩, ⟨"B", 3, 5, 0.95, "de".toList⟩]
      = true ∧
    apply_sanitization "abcdef".toList
        [⟨"A", 1, 3, 0.95, "bc".toList⟩, ⟨"B", 3, 5, 0.95, "de".toList⟩]
        "replace" ['*'] 6
      = reconstructFrom "abcdef".toList (replacement_of "replace" ['*'] 6) 0
          [⟨"A", 1, 3, 0.95, "bc".toList⟩, ⟨"B", 3, 5, 0.95, "de".toList⟩] :=
  ⟨by decide,
   high_to_low_rewrite_matches_reference _ _ _ _ _ (by decide)⟩

/-- C5 (counterexample): a masked span contributes
`mask_len * len(mask_char)` characters, not `mask_len` characters, when
`mask_char` is not a single character: with `mask_char = "ab"` and
`mask_len = 3`, the single detected span of `"a@b.com"` is replaced by
`"ababab"` (6 characters, not 3). -/
theorem mask_width_counterexample :
    (sanitize_apply { text := "a@b.com".toList, operator := "mask",
                      mask_char := ['a', 'b'], mask_len := 3 }).sanitized_text
      = "ababab".toList ∧
    (sanitize_apply { text := "a@b.com".toList, operator := "mask",
                      mask_char := ['a', 'b'], mask_len := 3
                    }).sanitized_text.length ≠ 3 := by
  constructor
  · decide
  · decide

/-- C5 (amended): when the operator is `"mask"`, a span is replaced by
`mask_char` repeated `mask_len` times (Python string repetition), so the
replacement contributes `mask_len * len(mask_char)` characters — equal to
`mask_len` only when `mask_char` is a single character. -/
theorem mask_replacement_shape (text : List Char) (e : EntityHit)
    (mc : List Char) (ml : Int) :
    apply_sanitization text [e] "mask" mc ml
      = text.take e.start ++ (List.replicate ml.toNat mc).flatten
        ++ text.drop e.«end» ∧
    ((List.replicate ml.toNat mc).flatten).length = ml.toNat * mc.length := by
  constructor
  · simp [apply_sanitization, replacement_of]
  · exact length_flatten_replicate ml.toNat mc

/-- C6: with the `"replace"` operator every detected span is substituted
by the fixed tag `"<ENTITY_TYPE>"`, and on the spec's scenario input the
apply and preview outputs are exactly
`"Contact me at <EMAIL> or call <PHONE>, card <CREDIT_CARD>"`. -/
theorem replace_operator_scenario :
    (∀ (mc : List Char) (ml : Int) (e : EntityHit),
        replacement_of "replace" mc ml e
          = '<' :: (e.entity_type.toList ++ ['>'])) ∧
    (sanitize_apply
        { text := "Contact me at a@b.com or call 555-123-4567, card 4111 1111 1111 1111".toList
        }).sanitized_text
      = "Contact me at <EMAIL> or call <PHONE>, card <CREDIT_CARD>".toList ∧
    (sanitize_preview
        { text := "Contact me at a@b.com or call 555-123-4567, card 4111 1111 1111 1111".toList
        }).redacted_text
      = "Contact me at <EMAIL> or call <PHONE>, card <CREDIT_CARD>".toList := by
  refine ⟨fun mc ml e => ?_, by decide, by decide⟩
  simp [replacement_of]

/-- C7: for every text, if a non-empty allow-list of entity types is
supplied, every span in the detection result has an `entity_type`
contained in that allow-list. -/
theorem allow_list_filtering (text : List Char) (l : List String)
    (h : l ≠ []) :
    (find_entities text (some l)).all
        (fun e => l.contains e.entity_type) = true := by
  rw [List.all_eq_true]
  intro e he
  have he' : e ∈ rawCandidates text (activePatterns (some l)) :=
    (List.perm_insertionSort startLE _).mem_iff.mp he
  simp only [rawCandidates, List.mem_flatMap, List.mem_map] at he'
  obtain ⟨kv, hkv, se, _, rfl⟩ := he'
  have hne : ¬(l.isEmpty = true) := by simpa using h
  simp only [activePatterns, if_neg hne] at hkv
  exact (List.mem_filter.mp hkv).2

/-- Witness for C7. -/
theorem allow_list_filtering_witness :
    (["EMAIL"] ≠ ([] : List String)) ∧
    (find_entities "a@b.com and 12345678Z".toList (some ["EMAIL"])).all
        (fun e => (["EMAIL"] : List String).contains e.entity_type) = true :=
  ⟨by decide, allow_list_filtering _ _ (by decide)⟩

/-- C8 (counterexample): an empty allow-list is falsy in Python and is
treated as "all patterns", not as an empty intersection: with
`entities = []` the text `"bob@mail.es"` still yields a detected span and
a changed output. -/
theorem empty_allow_list_counterexample :
    find_entities "bob@mail.es".toList (some []) ≠ [] ∧
    (sanitize_apply { text := "bob@mail.es".toList,
                      entities := some [] }).sanitized_text
      ≠ "bob@mail.es".toList := by
  constructor
  · decide
  · decide

/-- C8 (amended): for every text, if the supplied allow-list is
*non-empty* and has empty intersection with the registered entity types,
detection returns an empty span set without error and the redacted output
equals the input unchanged (an empty allow-list instead behaves as if the
allow-list were omitted). -/
theorem disjoint_allow_list_unchanged (text : List Char) (l : List String)
    (hne : l ≠ []) (hdisj : ∀ p ∈ PATTERNS, l.contains p.1 = false)
    (op : String) (mc : List Char) (ml : Int) :
    find_entities text (some l) = [] ∧
    apply_sanitization text (find_entities text (some l)) op mc ml = text := by
  have hne' : ¬(l.isEmpty = true) := by simpa using hne
  have hfilter : PATTERNS.filter (fun kv => l.contains kv.1) = [] := by
    rw [List.filter_eq_nil_iff]
    intro p hp
    simpa using hdisj p hp
  have hempty : find_entities text (some l) = [] := by
    simp only [find_entities, activePatterns, if_neg hne', hfilter]
    rfl
  refine ⟨hempty, ?_⟩
  rw [hempty]
  rfl

/-- Witness for C8 (amended). -/
theorem disjoint_allow_list_unchanged_witness :
    (["FOO"] ≠ ([] : List String)) ∧
    (∀ p ∈ PATTERNS, (["FOO"] : List String).contains p.1 = false) ∧
    (find_entities "a@b.com".toList (some ["FOO"]) = [] ∧
     apply_sanitization "a@b.com".toList
        (find_entities "a@b.com".toList (some ["FOO"])) "replace" ['*'] 6
       = "a@b.com".toList) :=
  ⟨by decide, by decide,
   disjoint_allow_list_unchanged _ _ (by decide) (by decide) _ _ _⟩

/-- C9 (counterexample): the engine performs no configuration validation.
An unknown operator (`"delete"`) silently behaves as `"replace"` and a
non-positive `mask_len` silently produces an empty replacement; both
requests return an ordinary response, no `InvalidConfig` error exists. -/
theorem no_invalid_config_error_counterexample :
    (sanitize_apply { text := "x@y.es".toList,
                      operator := "delete" }).sanitized_text
      = "<EMAIL>".toList ∧
    (sanitize_apply { text := "x@y.es".toList, operator := "mask",
                      mask_len := 0 }).sanitized_text = [] := by
  constructor
  · decide
  · decide

/-- C9 (amended): the engine never reports an `InvalidConfig` error: any
operator other than `"mask"` is treated exactly as `"replace"`, and a
non-positive `mask_len` makes the mask replacement empty; processing
always proceeds. -/
theorem no_config_validation (text : List Char) (entities : List EntityHit)
    (mc : List Char) (ml : Int) :
    (∀ op : String, op ≠ "mask" →
        apply_sanitization text entities op mc ml
          = apply_sanitization text entities "replace" mc ml) ∧
    (ml ≤ 0 → ∀ e : EntityHit, replacement_of "mask" mc ml e = []) := by
  constructor
  · intro op hop
    have hrepl : replacement_of op mc ml = replacement_of "replace" mc ml := by
      funext e
      simp only [replacement_of, if_neg hop,
        if_neg (by decide : ¬("replace" = "mask"))]
    simp only [apply_sanitization, hrepl]
  · intro hml e
    simp [replacement_of, Int.toNat_of_nonpos hml]

/-- Witness for C9 (amended). -/
theorem no_config_validation_witness :
    apply_sanitization ['a'] [] "delete" ['*'] 6
      = apply_sanitization ['a'] [] "replace" ['*'] 6 ∧
    replacement_of "mask" ['*'] (-1) ⟨"EMAIL", 0, 1, 0.95, ['a']⟩ = [] :=
  ⟨(no_config_validation ['a'] [] ['*'] 6).1 "delete" (by decide),
   (no_config_validation ['a'] [] ['*'] (-1)).2 (by decide) _⟩

/-- C10: for every text, detection with an empty-list allow-list returns
exactly the same span set as detection with the allow-list omitted: the
empty list is falsy, so all registered patterns apply. -/
theorem empty_allow_list_equals_none (text : List Char) :
    find_entities text (some []) = find_entities text none := rfl

end Sanitize
